import Mathlib

/-!
Shallow embedding of the authenticated gossip engine
(`discovery/gossiper.go`) of the lnd fork under verification.

The pipeline `processNetworkAnnouncement`, the premature-announcement
buffer handling of `networkHandler`'s new-block branch, and the
`deDupedAnnouncements` batcher are translated directly from the source.
External collaborators that live in this repository but outside the
provided sources (the signature validators, the graph store, the
waiting-proof store and `createChanAnnouncement`) are modelled from the
specification, as noted on each definition.

Machine integers: block heights are `uint32` in the source and never
overflow in any comparison performed here (only `+` and `<` on values
far below `2^32` appear in the claims), so they are modelled as `Nat`.
-/

/-- Compact (block height, tx index, output index) channel identifier,
mirroring `lnwire.ShortChannelID`. -/
structure ShortChannelID where
  blockHeight : Nat
  txIndex : Nat
  txPosition : Nat
deriving DecidableEq, Repr

/-- Wire channel announcement (`lnwire.ChannelAnnouncement`): chain tag,
short channel id, node and bitcoin keys, four signatures, features. -/
structure ChannelAnnouncement where
  chainHash : Nat
  shortChannelID : ShortChannelID
  nodeID1 : Nat
  nodeID2 : Nat
  bitcoinKey1 : Nat
  bitcoinKey2 : Nat
  nodeSig1 : Nat
  nodeSig2 : Nat
  bitcoinSig1 : Nat
  bitcoinSig2 : Nat
  features : Nat
deriving DecidableEq, Repr

/-- Wire channel update (`lnwire.ChannelUpdate`). -/
structure ChannelUpdate where
  chainHash : Nat
  shortChannelID : ShortChannelID
  timestamp : Nat
  flags : Nat
  timeLockDelta : Nat
  htlcMinimumMsat : Nat
  baseFee : Nat
  feeRate : Nat
  updSignature : Nat
deriving DecidableEq, Repr

/-- Wire node announcement (`lnwire.NodeAnnouncement`). -/
structure NodeAnnouncement where
  nodeSignature : Nat
  timestamp : Nat
  nodeID : Nat
  nodeAlias : Nat
  features : Nat
  addresses : List Nat
deriving DecidableEq, Repr

/-- Wire announcement-signatures message (`lnwire.AnnounceSignatures`):
the sender's half of a channel proof. -/
structure AnnounceSignatures where
  channelID : Nat
  shortChannelID : ShortChannelID
  nodeSignature : Nat
  bitcoinSignature : Nat
deriving DecidableEq, Repr

/-- The four wire message variants admitted by the gossiper. -/
inductive Message where
  | chanAnn (m : ChannelAnnouncement)
  | chanUpd (m : ChannelUpdate)
  | nodeAnn (m : NodeAnnouncement)
  | annSigs (m : AnnounceSignatures)
deriving DecidableEq, Repr

/-- Envelope coupling a wire message with the peer that sent it and the
origin flag, mirroring `networkMsg` (the `err` result channel is
modelled by the `Outcome` produced by processing). -/
structure NetworkMsg where
  peer : Nat
  msg : Message
  isRemote : Bool
deriving DecidableEq, Repr

/-- Kind of error written to the envelope's result channel. -/
inductive ErrKind where
  | validation
  | graphRejected
  | unknownChannel
  | badFlags
  | peerMismatch
  | proofInvalid
deriving DecidableEq, Repr

/-- What one call to `processNetworkAnnouncement` writes to the
envelope's result channel: nothing at all, a nil (success), or an
error. -/
inductive Outcome where
  | silent
  | ok
  | err (k : ErrKind)
deriving DecidableEq, Repr

/-- Four-signature channel proof (`channeldb.ChannelAuthProof`). -/
structure ChannelAuthProof where
  nodeSig1 : Nat
  nodeSig2 : Nat
  bitcoinSig1 : Nat
  bitcoinSig2 : Nat
deriving DecidableEq, Repr

/-- Channel edge record handed to `Router.AddEdge`
(`channeldb.ChannelEdgeInfo`). The source stores the packed `uint64`
form of the short channel id; the packing is a bijection, so the id is
kept structured here. -/
structure ChannelEdgeInfo where
  channelID : ShortChannelID
  chainHash : Nat
  nodeKey1 : Nat
  nodeKey2 : Nat
  bitcoinKey1 : Nat
  bitcoinKey2 : Nat
  authProof : Option ChannelAuthProof
  features : Nat
deriving DecidableEq, Repr

/-- Directed edge policy handed to `Router.UpdateEdge`
(`channeldb.ChannelEdgePolicy`). -/
structure ChannelEdgePolicy where
  polSignature : Nat
  channelID : ShortChannelID
  lastUpdate : Nat
  flags : Nat
  timeLockDelta : Nat
  minHTLC : Nat
  feeBaseMSat : Nat
  feeProportionalMillionths : Nat
deriving DecidableEq, Repr

/-- Node record handed to `Router.AddNode` (`channeldb.LightningNode`). -/
structure LightningNode where
  haveNodeAnnouncement : Bool
  lastUpdate : Nat
  pubKey : Nat
  nodeAlias : Nat
  authSig : Nat
  features : Nat
  addresses : List Nat
deriving DecidableEq, Repr

/-- Modelled from the spec: key of a waiting-proof record in
`channeldb.WaitingProofStore` (not under the provided sources) — the
channel id together with the origin flag; at most one record per key. -/
structure WaitingProofKey where
  isRemote : Bool
  scid : ShortChannelID
deriving DecidableEq, Repr

/-- Modelled from the spec: a persisted half channel proof
(`channeldb.WaitingProof`), `(channel_id, is_local_origin, node_sig,
chain_sig)`. -/
structure WaitingProof where
  isRemote : Bool
  msg : AnnounceSignatures
deriving DecidableEq, Repr

/-- Key under which a waiting proof is stored. -/
def WaitingProof.key (p : WaitingProof) : WaitingProofKey :=
  ⟨p.isRemote, p.msg.shortChannelID⟩

/-- Modelled from the spec: the opposite key is the same channel id with
inverted origin flag. -/
def WaitingProofKey.opposite (k : WaitingProofKey) : WaitingProofKey :=
  ⟨!k.isRemote, k.scid⟩

/-- Opposite key of a waiting proof (`WaitingProof.OppositeKey`). -/
def WaitingProof.oppositeKey (p : WaitingProof) : WaitingProofKey :=
  p.key.opposite

/-- The waiting-proof store contents: an association list with at most
one record per key (insertion replaces). -/
abbrev WaitingProofs : Type := List (WaitingProofKey × WaitingProof)

/-- Modelled from the spec: `WaitingProofStore.Get` — look a record up
by key, `ErrWaitingProofNotFound` becoming `none`. -/
def wpGet (s : WaitingProofs) (k : WaitingProofKey) : Option WaitingProof :=
  (s.find? (fun e => e.1 = k)).map (fun e => e.2)

/-- Modelled from the spec: `WaitingProofStore.Add` — store a record
under its key, replacing any existing record for that key. -/
def wpAdd : WaitingProofs → WaitingProof → WaitingProofs
  | [], p => [(p.key, p)]
  | e :: t, p => if e.1 = p.key then (p.key, p) :: t else e :: wpAdd t p

/-- Modelled from the spec: `WaitingProofStore.Remove` — delete the
record stored under a key. -/
def wpRemove (s : WaitingProofs) (k : WaitingProofKey) : WaitingProofs :=
  s.filter (fun e => e.1 ≠ k)

/-- Mutable gossiper fields relevant to the pipeline: best known block
height, the premature buffer (kept as (height, envelope) pairs in
arrival order) and the waiting-proof store. -/
structure GossiperState where
  bestHeight : Nat
  prematureAnnouncements : List (Nat × NetworkMsg)
  waitingProofs : WaitingProofs
deriving DecidableEq, Repr

/-- Log of the calls processing makes on external collaborators: the
graph store (`AddNode`/`AddEdge`/`UpdateEdge`/`AddProof`), the peer
transport (`SendToPeer`), waiting-proof removals, and each signature
validator invocation. -/
structure Effects where
  addNodeCalls : List LightningNode
  addEdgeCalls : List ChannelEdgeInfo
  updateEdgeCalls : List ChannelEdgePolicy
  addProofCalls : List (ShortChannelID × ChannelAuthProof)
  sendToPeerCalls : List (Nat × AnnounceSignatures)
  removedWaitingProofs : List WaitingProofKey
  nodeAnnValidations : List NodeAnnouncement
  chanAnnValidations : List ChannelAnnouncement
  chanUpdValidations : List (Nat × ChannelUpdate)
deriving DecidableEq, Repr

/-- The empty effect log. -/
def Effects.empty : Effects :=
  ⟨[], [], [], [], [], [], [], [], []⟩

/-- Concatenation of effect logs of consecutive processing steps. -/
def Effects.append (a b : Effects) : Effects :=
  ⟨a.addNodeCalls ++ b.addNodeCalls,
   a.addEdgeCalls ++ b.addEdgeCalls,
   a.updateEdgeCalls ++ b.updateEdgeCalls,
   a.addProofCalls ++ b.addProofCalls,
   a.sendToPeerCalls ++ b.sendToPeerCalls,
   a.removedWaitingProofs ++ b.removedWaitingProofs,
   a.nodeAnnValidations ++ b.nodeAnnValidations,
   a.chanAnnValidations ++ b.chanAnnValidations,
   a.chanUpdValidations ++ b.chanUpdValidations⟩

/-- Result of one `processNetworkAnnouncement` call: the new state, the
value written to the envelope's result channel, the returned batch of
announcements (added to the dedup batch by `networkHandler`), and the
external-call log. -/
structure ProcResult where
  state : GossiperState
  outcome : Outcome
  anns : List Message
  effects : Effects
deriving DecidableEq, Repr

/-- Static configuration plus the external collaborators the pipeline
consults. The validators, the graph-store lookup and the graph-store
success predicates live in this repository outside the provided
sources and are modelled from the spec as opaque oracles: a validator
answers whether a signature checks out; `getChannelByID` returns the
channel info with the two directed policies, or `none` for an unknown
channel; the `...Ok` predicates say whether the store call succeeds. -/
structure Env where
  chainHash : Nat
  proofMatureDelta : Nat
  validateNodeAnn : NodeAnnouncement → Bool
  validateChannelAnn : ChannelAnnouncement → Bool
  validateChannelUpdateAnn : Nat → ChannelUpdate → Bool
  getChannelByID : ShortChannelID →
    Option (ChannelEdgeInfo × Option ChannelEdgePolicy × Option ChannelEdgePolicy)
  addNodeOk : LightningNode → Bool
  addEdgeOk : ChannelEdgeInfo → Bool
  updateEdgeOk : ChannelEdgePolicy → Bool
  addProofOk : ShortChannelID → ChannelAuthProof → Bool

/-- Premature check from `processNetworkAnnouncement`:
`chanID.BlockHeight + delta > bestHeight`. -/
def isPremature (s : GossiperState) (chanID : ShortChannelID) (delta : Nat) : Bool :=
  decide (s.bestHeight < chanID.blockHeight + delta)

/-- Modelled from the spec: `createChanAnnouncement` (in this
repository's discovery package, outside the provided sources)
reconstructs the canonical channel announcement from a full proof and
the stored channel info, together with the channel update for each
stored directed policy. -/
def createChanAnnouncement (proof : ChannelAuthProof) (info : ChannelEdgeInfo)
    (e1 e2 : Option ChannelEdgePolicy) :
    ChannelAnnouncement × Option ChannelUpdate × Option ChannelUpdate :=
  let chanAnn : ChannelAnnouncement :=
    { chainHash := info.chainHash
      shortChannelID := info.channelID
      nodeID1 := info.nodeKey1
      nodeID2 := info.nodeKey2
      bitcoinKey1 := info.bitcoinKey1
      bitcoinKey2 := info.bitcoinKey2
      nodeSig1 := proof.nodeSig1
      nodeSig2 := proof.nodeSig2
      bitcoinSig1 := proof.bitcoinSig1
      bitcoinSig2 := proof.bitcoinSig2
      features := info.features }
  let mkUpd : ChannelEdgePolicy → ChannelUpdate := fun e =>
    { chainHash := info.chainHash
      shortChannelID := info.channelID
      timestamp := e.lastUpdate
      flags := e.flags
      timeLockDelta := e.timeLockDelta
      htlcMinimumMsat := e.minHTLC
      baseFee := e.feeBaseMSat
      feeRate := e.feeProportionalMillionths
      updSignature := e.polSignature }
  (chanAnn, e1.map mkUpd, e2.map mkUpd)

/-- Assembly of the full proof from the two halves, slotted by whether
the incoming half's sender is the channel's first node (gossiper.go,
`AnnounceSignatures` branch). -/
def assembleDbProof (isFirstNode : Bool) (incoming opposite : AnnounceSignatures) :
    ChannelAuthProof :=
  if isFirstNode then
    ⟨incoming.nodeSignature, opposite.nodeSignature,
     incoming.bitcoinSignature, opposite.bitcoinSignature⟩
  else
    ⟨opposite.nodeSignature, incoming.nodeSignature,
     opposite.bitcoinSignature, incoming.bitcoinSignature⟩

/-- Translation of `AuthenticatedGossiper.processNetworkAnnouncement`
(gossiper.go). Each branch follows the source's control flow; writing
to the `err` channel becomes the `Outcome`, calls on external
collaborators are logged in `Effects`, and the returned slice of
announcements becomes `anns`. -/
def processNetworkAnnouncement (env : Env) (s : GossiperState) (nMsg : NetworkMsg) :
    ProcResult :=
  match nMsg.msg with
  | Message.nodeAnn msg =>
    let vlog : List NodeAnnouncement := if nMsg.isRemote then [msg] else []
    if nMsg.isRemote && !(env.validateNodeAnn msg) then
      { state := s, outcome := .err .validation, anns := [],
        effects := { Effects.empty with nodeAnnValidations := vlog } }
    else
      let node : LightningNode :=
        { haveNodeAnnouncement := true
          lastUpdate := msg.timestamp
          pubKey := msg.nodeID
          nodeAlias := msg.nodeAlias
          authSig := msg.nodeSignature
          features := msg.features
          addresses := msg.addresses }
      if env.addNodeOk node then
        { state := s, outcome := .ok, anns := [.nodeAnn msg],
          effects := { Effects.empty with
            nodeAnnValidations := vlog, addNodeCalls := [node] } }
      else
        { state := s, outcome := .err .graphRejected, anns := [],
          effects := { Effects.empty with
            nodeAnnValidations := vlog, addNodeCalls := [node] } }
  | Message.chanAnn msg =>
    if msg.chainHash ≠ env.chainHash then
      { state := s, outcome := .silent, anns := [], effects := Effects.empty }
    else if nMsg.isRemote && isPremature s msg.shortChannelID 0 then
      { state := { s with prematureAnnouncements :=
          s.prematureAnnouncements ++ [(msg.shortChannelID.blockHeight, nMsg)] },
        outcome := .silent, anns := [], effects := Effects.empty }
    else
      let vlog : List ChannelAnnouncement := if nMsg.isRemote then [msg] else []
      if nMsg.isRemote && !(env.validateChannelAnn msg) then
        { state := s, outcome := .err .validation, anns := [],
          effects := { Effects.empty with chanAnnValidations := vlog } }
      else
        let proof : Option ChannelAuthProof :=
          if nMsg.isRemote then
            some ⟨msg.nodeSig1, msg.nodeSig2, msg.bitcoinSig1, msg.bitcoinSig2⟩
          else none
        let edge : ChannelEdgeInfo :=
          { channelID := msg.shortChannelID
            chainHash := msg.chainHash
            nodeKey1 := msg.nodeID1
            nodeKey2 := msg.nodeID2
            bitcoinKey1 := msg.bitcoinKey1
            bitcoinKey2 := msg.bitcoinKey2
            authProof := proof
            features := msg.features }
        if env.addEdgeOk edge then
          { state := s, outcome := .ok,
            anns := if proof.isSome then [.chanAnn msg] else [],
            effects := { Effects.empty with
              chanAnnValidations := vlog, addEdgeCalls := [edge] } }
        else
          { state := s, outcome := .err .graphRejected, anns := [],
            effects := { Effects.empty with
              chanAnnValidations := vlog, addEdgeCalls := [edge] } }
  | Message.chanUpd msg =>
    if msg.chainHash ≠ env.chainHash then
      { state := s, outcome := .silent, anns := [], effects := Effects.empty }
    else if nMsg.isRemote && isPremature s msg.shortChannelID 0 then
      { state := { s with prematureAnnouncements :=
          s.prematureAnnouncements ++ [(msg.shortChannelID.blockHeight, nMsg)] },
        outcome := .silent, anns := [], effects := Effects.empty }
    else
      match env.getChannelByID msg.shortChannelID with
      | none =>
        { state := s, outcome := .err .unknownChannel, anns := [],
          effects := Effects.empty }
      | some (chanInfo, _, _) =>
        let keySel : Option Nat :=
          if msg.flags = 0 then some chanInfo.nodeKey1
          else if msg.flags = 1 then some chanInfo.nodeKey2
          else none
        match keySel with
        | none =>
          { state := s, outcome := .err .badFlags, anns := [],
            effects := Effects.empty }
        | some pubKey =>
          if !(env.validateChannelUpdateAnn pubKey msg) then
            { state := s, outcome := .err .validation, anns := [],
              effects := { Effects.empty with
                chanUpdValidations := [(pubKey, msg)] } }
          else
            let update : ChannelEdgePolicy :=
              { polSignature := msg.updSignature
                channelID := msg.shortChannelID
                lastUpdate := msg.timestamp
                flags := msg.flags
                timeLockDelta := msg.timeLockDelta
                minHTLC := msg.htlcMinimumMsat
                feeBaseMSat := msg.baseFee
                feeProportionalMillionths := msg.feeRate }
            if env.updateEdgeOk update then
              { state := s, outcome := .ok,
                anns := if chanInfo.authProof.isSome then [.chanUpd msg] else [],
                effects := { Effects.empty with
                  chanUpdValidations := [(pubKey, msg)],
                  updateEdgeCalls := [update] } }
            else
              { state := s, outcome := .err .graphRejected, anns := [],
                effects := { Effects.empty with
                  chanUpdValidations := [(pubKey, msg)],
                  updateEdgeCalls := [update] } }
  | Message.annSigs msg =>
    let needBlockHeight := msg.shortChannelID.blockHeight + env.proofMatureDelta
    if isPremature s msg.shortChannelID env.proofMatureDelta then
      { state := { s with prematureAnnouncements :=
          s.prematureAnnouncements ++ [(needBlockHeight, nMsg)] },
        outcome := .silent, anns := [], effects := Effects.empty }
    else
      match env.getChannelByID msg.shortChannelID with
      | none =>
        let proof : WaitingProof := ⟨nMsg.isRemote, msg⟩
        { state := { s with waitingProofs := wpAdd s.waitingProofs proof },
          outcome := .ok, anns := [], effects := Effects.empty }
      | some (chanInfo, e1, e2) =>
        let isFirstNode : Bool := nMsg.peer == chanInfo.nodeKey1
        let isSecondNode : Bool := nMsg.peer == chanInfo.nodeKey2
        if !(isFirstNode || isSecondNode) then
          { state := s, outcome := .err .peerMismatch, anns := [],
            effects := Effects.empty }
        else
          let proof : WaitingProof := ⟨nMsg.isRemote, msg⟩
          match wpGet s.waitingProofs proof.oppositeKey with
          | none =>
            let sends : List (Nat × AnnounceSignatures) :=
              if !nMsg.isRemote then
                [(if isFirstNode then chanInfo.nodeKey2 else chanInfo.nodeKey1, msg)]
              else []
            { state := { s with waitingProofs := wpAdd s.waitingProofs proof },
              outcome := .ok, anns := [],
              effects := { Effects.empty with sendToPeerCalls := sends } }
          | some oppositeProof =>
            let dbProof := assembleDbProof isFirstNode msg oppositeProof.msg
            let reconstructed := createChanAnnouncement dbProof chanInfo e1 e2
            let chanAnn := reconstructed.1
            if !(env.validateChannelAnn chanAnn) then
              { state := s, outcome := .err .proofInvalid, anns := [],
                effects := { Effects.empty with chanAnnValidations := [chanAnn] } }
            else if !(env.addProofOk msg.shortChannelID dbProof) then
              { state := s, outcome := .err .graphRejected, anns := [],
                effects := { Effects.empty with
                  chanAnnValidations := [chanAnn],
                  addProofCalls := [(msg.shortChannelID, dbProof)] } }
            else
              let e1Anns : List Message :=
                match reconstructed.2.1 with
                | some u => [.chanUpd u]
                | none => []
              let e2Anns : List Message :=
                match reconstructed.2.2 with
                | some u => [.chanUpd u]
                | none => []
              let sends : List (Nat × AnnounceSignatures) :=
                if !nMsg.isRemote then
                  [(if isFirstNode then chanInfo.nodeKey2 else chanInfo.nodeKey1, msg)]
                else []
              { state := { s with waitingProofs :=
                  (wpRemove s.waitingProofs proof.oppositeKey) },
                outcome := .ok,
                anns := [.chanAnn chanAnn] ++ e1Anns ++ e2Anns,
                effects := { Effects.empty with
                  chanAnnValidations := [chanAnn],
                  addProofCalls := [(msg.shortChannelID, dbProof)],
                  removedWaitingProofs := [proof.oppositeKey],
                  sendToPeerCalls := sends } }

/-- Accumulator for processing a sequence of envelopes. -/
structure StepAcc where
  state : GossiperState
  effects : Effects
  anns : List Message
deriving DecidableEq, Repr

/-- Sequential processing of a list of envelopes, accumulating effect
logs and emitted announcements. -/
def processMsgs (env : Env) (s : GossiperState) (msgs : List NetworkMsg) : StepAcc :=
  msgs.foldl
    (fun acc m =>
      let r := processNetworkAnnouncement env acc.state m
      ⟨r.state, acc.effects.append r.effects, acc.anns ++ r.anns⟩)
    ⟨s, Effects.empty, []⟩

/-- Translation of `networkHandler`'s new-block branch (gossiper.go):
store the new height, re-process the envelopes buffered at exactly that
height, then delete that key from the premature map. -/
def handleNewBlock (env : Env) (s : GossiperState) (height : Nat) : StepAcc :=
  let s1 : GossiperState := { s with bestHeight := height }
  let entries :=
    (s1.prematureAnnouncements.filter (fun p => p.1 = height)).map (fun p => p.2)
  let acc := processMsgs env s1 entries
  { acc with state := { acc.state with prematureAnnouncements :=
      (acc.state.prematureAnnouncements.filter (fun p => p.1 ≠ height)) } }

/-- Modelled from the spec: `routing.NewVertex` maps a node public key
to its canonical map key, injectively. -/
def NewVertex (pk : Nat) : Nat := pk

/-- Insertion into one of the dedup maps: replace the entry for the key
if present, append otherwise (Go map assignment; the maps always hold
at most one entry per key). -/
def mapInsert {κ : Type} [DecidableEq κ] : List (κ × Message) → κ → Message →
    List (κ × Message)
  | [], k, v => [(k, v)]
  | e :: t, k, v => if e.1 = k then (k, v) :: t else e :: mapInsert t k v

/-- The three dedup maps of `deDupedAnnouncements`, as association
lists with at most one entry per key. -/
structure DeDupedAnnouncements where
  channelAnnouncements : List (ShortChannelID × Message)
  channelUpdates : List ((ShortChannelID × Nat) × Message)
  nodeAnnouncements : List (Nat × Message)
deriving DecidableEq, Repr

/-- `deDupedAnnouncements.reset`: all three maps empty. -/
def DeDupedAnnouncements.reset : DeDupedAnnouncements := ⟨[], [], []⟩

/-- `deDupedAnnouncements.addMsg`: route the message to the map for its
type, keyed by short channel id, (short channel id, flags), or vertex;
other message types are ignored. -/
def DeDupedAnnouncements.addMsg (d : DeDupedAnnouncements) (message : Message) :
    DeDupedAnnouncements :=
  match message with
  | .chanAnn msg =>
    { d with channelAnnouncements :=
        (mapInsert d.channelAnnouncements msg.shortChannelID message) }
  | .chanUpd msg =>
    { d with channelUpdates :=
        (mapInsert d.channelUpdates (msg.shortChannelID, msg.flags) message) }
  | .nodeAnn msg =>
    { d with nodeAnnouncements :=
        (mapInsert d.nodeAnnouncements (NewVertex msg.nodeID) message) }
  | .annSigs _ => d

/-- `deDupedAnnouncements.AddMsgs`. -/
def DeDupedAnnouncements.AddMsgs (d : DeDupedAnnouncements) (msgs : List Message) :
    DeDupedAnnouncements :=
  msgs.foldl DeDupedAnnouncements.addMsg d

/-- `deDupedAnnouncements.Emit`: channel announcements, then channel
updates, then node announcements (the maps are cleared afterwards,
which the caller models with `reset`). -/
def DeDupedAnnouncements.Emit (d : DeDupedAnnouncements) : List Message :=
  d.channelAnnouncements.map (fun e => e.2)
    ++ d.channelUpdates.map (fun e => e.2)
    ++ d.nodeAnnouncements.map (fun e => e.2)

/-- Dedup key of a message: which map it goes to and under which key. -/
inductive BatchKey where
  | chanKey (scid : ShortChannelID)
  | updKey (scid : ShortChannelID) (flags : Nat)
  | nodeKey (vertex : Nat)
deriving DecidableEq, Repr

/-- The dedup key `addMsg` uses for a message (`none` for message types
the batcher ignores). -/
def msgBatchKey : Message → Option BatchKey
  | .chanAnn m => some (.chanKey m.shortChannelID)
  | .chanUpd m => some (.updKey m.shortChannelID m.flags)
  | .nodeAnn m => some (.nodeKey (NewVertex m.nodeID))
  | .annSigs _ => none

/-- Lookup in one dedup map. -/
def mapLookup {κ : Type} [DecidableEq κ] (m : List (κ × Message)) (k : κ) :
    Option Message :=
  (m.find? (fun e => e.1 = k)).map (fun e => e.2)

/-- Number of entries of one dedup map stored under a key. -/
def keyCount {κ : Type} [DecidableEq κ] (m : List (κ × Message)) (k : κ) : Nat :=
  m.countP (fun e => e.1 = k)

/-- Lookup of the batch entry stored under a dedup key. -/
def batchLookup (d : DeDupedAnnouncements) : BatchKey → Option Message
  | .chanKey scid => mapLookup d.channelAnnouncements scid
  | .updKey scid f => mapLookup d.channelUpdates (scid, f)
  | .nodeKey v => mapLookup d.nodeAnnouncements v

/-- Number of batch entries stored under a dedup key. -/
def batchCount (d : DeDupedAnnouncements) : BatchKey → Nat
  | .chanKey scid => keyCount d.channelAnnouncements scid
  | .updKey scid f => keyCount d.channelUpdates (scid, f)
  | .nodeKey v => keyCount d.nodeAnnouncements v

/-- Reference function, following the spec's words for last-write-wins:
the most recently added message with the given dedup key. -/
def lastMsgWithKey (msgs : List Message) (k : BatchKey) : Option Message :=
  msgs.foldl (fun acc m => if msgBatchKey m = some k then some m else acc) none

/-- Broadcast-order rank of a message: channel announcements before
channel updates before node announcements. -/
def msgCategory : Message → Nat
  | .chanAnn _ => 0
  | .chanUpd _ => 1
  | .nodeAnn _ => 2
  | .annSigs _ => 3

/-! Lemmas about the waiting-proof store model. -/

theorem wpGet_nil (k : WaitingProofKey) : wpGet [] k = none := rfl

theorem wpGet_cons (e : WaitingProofKey × WaitingProof) (t : WaitingProofs)
    (k : WaitingProofKey) :
    wpGet (e :: t) k = if e.1 = k then some e.2 else wpGet t k := by
  by_cases h : e.1 = k <;> simp [wpGet, List.find?_cons, h]

theorem wpGet_wpAdd (s : WaitingProofs) (p : WaitingProof) (k : WaitingProofKey) :
    wpGet (wpAdd s p) k = if k = p.key then some p else wpGet s k := by
  induction s with
  | nil =>
    by_cases h : k = p.key
    · subst h; simp [wpAdd, wpGet_cons, wpGet_nil]
    · simp [wpAdd, wpGet_cons, wpGet_nil, h, Ne.symm h]
  | cons e t ih =>
    by_cases he : e.1 = p.key
    · by_cases h : k = p.key
      · subst h; simp [wpAdd, he, wpGet_cons]
      · have he' : e.1 ≠ k := fun hh => h (hh ▸ he ▸ rfl)
        have hne : ¬(p.key = k) := fun hh => h hh.symm
        simp [wpAdd, he, wpGet_cons, he', hne, h]
    · by_cases h : k = p.key
      · subst h
        have he' : ¬(e.1 = p.key) := he
        simp [wpAdd, he', wpGet_cons, ih]
      · by_cases hek : e.1 = k
        · simp [wpAdd, he, wpGet_cons, hek, h]
        · simp [wpAdd, he, wpGet_cons, hek, h, ih]

theorem wpGet_wpRemove (s : WaitingProofs) (k k' : WaitingProofKey) :
    wpGet (wpRemove s k) k' = if k' = k then none else wpGet s k' := by
  induction s with
  | nil => simp [wpRemove, wpGet_nil]
  | cons e t ih =>
    by_cases hek : e.1 = k
    · have h1 : wpRemove (e :: t) k = wpRemove t k := by
        simp [wpRemove, List.filter_cons, hek]
      rw [h1, ih]
      by_cases h : k' = k
      · simp [h]
      · have he' : e.1 ≠ k' := by rw [hek]; exact Ne.symm h
        simp [h, wpGet_cons, he']
    · have h1 : wpRemove (e :: t) k = e :: wpRemove t k := by
        simp [wpRemove, List.filter_cons, hek]
      rw [h1, wpGet_cons, ih]
      by_cases h : k' = k
      · subst h
        simp [hek]
      · by_cases hek' : e.1 = k'
        · simp [hek', h, wpGet_cons]
        · simp [hek', h, wpGet_cons]

/-! Lemmas about the dedup maps. -/

theorem mapLookup_nil {κ : Type} [DecidableEq κ] (k : κ) :
    mapLookup ([] : List (κ × Message)) k = none := rfl

theorem mapLookup_cons {κ : Type} [DecidableEq κ] (e : κ × Message)
    (t : List (κ × Message)) (k : κ) :
    mapLookup (e :: t) k = if e.1 = k then some e.2 else mapLookup t k := by
  by_cases h : e.1 = k <;> simp [mapLookup, List.find?_cons, h]

theorem mapLookup_mapInsert {κ : Type} [DecidableEq κ] (m : List (κ × Message))
    (k k' : κ) (v : Message) :
    mapLookup (mapInsert m k v) k' = if k' = k then some v else mapLookup m k' := by
  induction m with
  | nil =>
    by_cases h : k' = k
    · subst h; simp [mapInsert, mapLookup_cons, mapLookup_nil]
    · simp [mapInsert, mapLookup_cons, mapLookup_nil, h, Ne.symm h]
  | cons e t ih =>
    by_cases he : e.1 = k
    · by_cases h : k' = k
      · subst h; simp [mapInsert, he, mapLookup_cons]
      · have he' : e.1 ≠ k' := fun hh => h (hh ▸ he ▸ rfl)
        have hne : ¬(k = k') := fun hh => h hh.symm
        simp [mapInsert, he, mapLookup_cons, he', hne, h]
    · by_cases h : k' = k
      · subst h
        simp [mapInsert, he, mapLookup_cons, ih]
      · by_cases hek : e.1 = k'
        · simp [mapInsert, he, mapLookup_cons, hek, h]
        · simp [mapInsert, he, mapLookup_cons, hek, h, ih]

theorem keyCount_nil {κ : Type} [DecidableEq κ] (k : κ) :
    keyCount ([] : List (κ × Message)) k = 0 := rfl

theorem keyCount_cons {κ : Type} [DecidableEq κ] (e : κ × Message)
    (t : List (κ × Message)) (k : κ) :
    keyCount (e :: t) k = (if e.1 = k then 1 else 0) + keyCount t k := by
  by_cases h : e.1 = k <;> simp [keyCount, List.countP_cons, h] <;> omega

theorem keyCount_mapInsert {κ : Type} [DecidableEq κ] (m : List (κ × Message))
    (k k' : κ) (v : Message) :
    keyCount (mapInsert m k v) k' =
      if k' = k then
        (if (mapLookup m k).isSome then keyCount m k else keyCount m k + 1)
      else keyCount m k' := by
  induction m with
  | nil =>
    by_cases h : k' = k
    · subst h; simp [mapInsert, keyCount_cons, keyCount_nil, mapLookup_nil]
    · simp [mapInsert, keyCount_cons, keyCount_nil, mapLookup_nil, h, Ne.symm h]
  | cons e t ih =>
    by_cases he : e.1 = k
    · by_cases h : k' = k
      · subst h
        simp [mapInsert, he, keyCount_cons, mapLookup_cons]
      · have he' : e.1 ≠ k' := fun hh => h (hh ▸ he ▸ rfl)
        have hne : ¬(k = k') := fun hh => h hh.symm
        simp [mapInsert, he, keyCount_cons, he', hne, h]
    · by_cases h : k' = k
      · subst h
        simp [mapInsert, he, keyCount_cons, mapLookup_cons, ih]
      · by_cases hek : e.1 = k'
        · simp [mapInsert, he, keyCount_cons, hek, h, ih]
        · simp [mapInsert, he, keyCount_cons, hek, h, ih]

theorem keyCount_mapInsert_invAt {κ : Type} [DecidableEq κ] (m : List (κ × Message))
    (k k' : κ) (v : Message)
    (h : keyCount m k' = if (mapLookup m k').isSome then 1 else 0) :
    keyCount (mapInsert m k v) k' =
      if (mapLookup (mapInsert m k v) k').isSome then 1 else 0 := by
  rw [keyCount_mapInsert, mapLookup_mapInsert]
  by_cases hk : k' = k
  · subst hk
    by_cases hs : (mapLookup m k').isSome
    · simp [hs, h]
    · simp [hs] at h
      simp [hs, h]
  · simp [hk, h]

theorem batchLookup_addMsg (d : DeDupedAnnouncements) (m : Message) (k : BatchKey) :
    batchLookup (d.addMsg m) k =
      if msgBatchKey m = some k then some m else batchLookup d k := by
  cases m with
  | chanAnn a =>
    cases k with
    | chanKey scid =>
      simp only [DeDupedAnnouncements.addMsg, batchLookup, msgBatchKey,
        mapLookup_mapInsert, Option.some.injEq, BatchKey.chanKey.injEq]
      by_cases h : scid = a.shortChannelID
      · simp [h]
      · simp [h, Ne.symm h]
    | updKey scid f => simp [DeDupedAnnouncements.addMsg, batchLookup, msgBatchKey]
    | nodeKey v => simp [DeDupedAnnouncements.addMsg, batchLookup, msgBatchKey]
  | chanUpd a =>
    cases k with
    | chanKey scid => simp [DeDupedAnnouncements.addMsg, batchLookup, msgBatchKey]
    | updKey scid f =>
      simp only [DeDupedAnnouncements.addMsg, batchLookup, msgBatchKey,
        mapLookup_mapInsert, Option.some.injEq, BatchKey.updKey.injEq]
      by_cases h : (scid, f) = (a.shortChannelID, a.flags)
      · have h1 : scid = a.shortChannelID := congrArg Prod.fst h
        have h2 : f = a.flags := congrArg Prod.snd h
        simp [h, h1, h2]
      · have hne : ¬(a.shortChannelID = scid ∧ a.flags = f) := by
          rintro ⟨h1, h2⟩
          exact h (by rw [h1, h2])
        simp [h, hne]
    | nodeKey v => simp [DeDupedAnnouncements.addMsg, batchLookup, msgBatchKey]
  | nodeAnn a =>
    cases k with
    | chanKey scid => simp [DeDupedAnnouncements.addMsg, batchLookup, msgBatchKey]
    | updKey scid f => simp [DeDupedAnnouncements.addMsg, batchLookup, msgBatchKey]
    | nodeKey v =>
      simp only [DeDupedAnnouncements.addMsg, batchLookup, msgBatchKey,
        mapLookup_mapInsert, Option.some.injEq, BatchKey.nodeKey.injEq]
      by_cases h : v = NewVertex a.nodeID
      · simp [h]
      · simp [h, Ne.symm h]
  | annSigs a =>
    cases k <;> simp [DeDupedAnnouncements.addMsg, batchLookup, msgBatchKey]

theorem batchInvAt_addMsg (d : DeDupedAnnouncements) (m : Message) (k : BatchKey)
    (h : batchCount d k = if (batchLookup d k).isSome then 1 else 0) :
    batchCount (d.addMsg m) k =
      if (batchLookup (d.addMsg m) k).isSome then 1 else 0 := by
  cases m with
  | chanAnn a =>
    cases k with
    | chanKey scid =>
      simp only [DeDupedAnnouncements.addMsg, batchCount, batchLookup] at h ⊢
      exact keyCount_mapInsert_invAt _ _ _ _ h
    | updKey scid f => exact h
    | nodeKey v => exact h
  | chanUpd a =>
    cases k with
    | chanKey scid => exact h
    | updKey scid f =>
      simp only [DeDupedAnnouncements.addMsg, batchCount, batchLookup] at h ⊢
      exact keyCount_mapInsert_invAt _ _ _ _ h
    | nodeKey v => exact h
  | nodeAnn a =>
    cases k with
    | chanKey scid => exact h
    | updKey scid f => exact h
    | nodeKey v =>
      simp only [DeDupedAnnouncements.addMsg, batchCount, batchLookup] at h ⊢
      exact keyCount_mapInsert_invAt _ _ _ _ h
  | annSigs a => exact h

theorem batchInvAt_AddMsgs (msgs : List Message) (d : DeDupedAnnouncements)
    (k : BatchKey)
    (h : batchCount d k = if (batchLookup d k).isSome then 1 else 0) :
    batchCount (d.AddMsgs msgs) k =
      if (batchLookup (d.AddMsgs msgs) k).isSome then 1 else 0 := by
  induction msgs generalizing d with
  | nil => exact h
  | cons m t ih => exact ih (d.addMsg m) (batchInvAt_addMsg d m k h)

theorem batchLookup_AddMsgs (msgs : List Message) (d : DeDupedAnnouncements)
    (k : BatchKey) :
    batchLookup (d.AddMsgs msgs) k =
      msgs.foldl (fun acc m => if msgBatchKey m = some k then some m else acc)
        (batchLookup d k) := by
  induction msgs generalizing d with
  | nil => rfl
  | cons m t ih =>
    show batchLookup ((d.addMsg m).AddMsgs t) k = _
    rw [ih (d.addMsg m), batchLookup_addMsg]
    rfl

/-- C8: within one batch (all additions since the last reset), each
dedup key holds exactly the most recently added message with that key:
the lookup equals the last write, and the number of entries under the
key is one when any message with the key was added and zero otherwise.
In particular, adding the same announcement N times yields one entry. -/
theorem dedup_lastWriteWins (msgs : List Message) (k : BatchKey) :
    batchLookup (DeDupedAnnouncements.AddMsgs DeDupedAnnouncements.reset msgs) k
        = lastMsgWithKey msgs k
    ∧ batchCount (DeDupedAnnouncements.AddMsgs DeDupedAnnouncements.reset msgs) k
        = (if (lastMsgWithKey msgs k).isSome then 1 else 0) := by
  have h0 : batchLookup DeDupedAnnouncements.reset k = none := by
    cases k <;> rfl
  have hinv0 : batchCount DeDupedAnnouncements.reset k =
      if (batchLookup DeDupedAnnouncements.reset k).isSome then 1 else 0 := by
    cases k <;> rfl
  have h1 := batchLookup_AddMsgs msgs DeDupedAnnouncements.reset k
  rw [h0] at h1
  have h2 : batchLookup (DeDupedAnnouncements.AddMsgs DeDupedAnnouncements.reset msgs) k
      = lastMsgWithKey msgs k := h1
  refine ⟨h2, ?_⟩
  rw [batchInvAt_AddMsgs msgs DeDupedAnnouncements.reset k hinv0, h2]

/-- Typing of the three dedup maps: each holds only messages of its own
broadcast category. -/
def batchWF (d : DeDupedAnnouncements) : Prop :=
  (∀ e ∈ d.channelAnnouncements, msgCategory e.2 = 0) ∧
  (∀ e ∈ d.channelUpdates, msgCategory e.2 = 1) ∧
  (∀ e ∈ d.nodeAnnouncements, msgCategory e.2 = 2)

theorem mem_mapInsert {κ : Type} [DecidableEq κ] {m : List (κ × Message)} {k : κ}
    {v : Message} {e : κ × Message} (h : e ∈ mapInsert m k v) :
    e ∈ m ∨ e = (k, v) := by
  induction m with
  | nil =>
    right
    simpa [mapInsert] using h
  | cons a t ih =>
    by_cases ha : a.1 = k
    · rw [mapInsert, if_pos ha] at h
      rcases List.mem_cons.mp h with h | h
      · right; exact h
      · left; exact List.mem_cons_of_mem a h
    · rw [mapInsert, if_neg ha] at h
      rcases List.mem_cons.mp h with h | h
      · left; exact h ▸ List.mem_cons_self a t
      · rcases ih h with h' | h'
        · left; exact List.mem_cons_of_mem a h'
        · right; exact h'

theorem batchWF_addMsg (d : DeDupedAnnouncements) (m : Message) (h : batchWF d) :
    batchWF (d.addMsg m) := by
  obtain ⟨h0, h1, h2⟩ := h
  cases m with
  | chanAnn a =>
    refine ⟨?_, h1, h2⟩
    intro e he
    rcases mem_mapInsert he with he' | he'
    · exact h0 e he'
    · exact he' ▸ rfl
  | chanUpd a =>
    refine ⟨h0, ?_, h2⟩
    intro e he
    rcases mem_mapInsert he with he' | he'
    · exact h1 e he'
    · exact he' ▸ rfl
  | nodeAnn a =>
    refine ⟨h0, h1, ?_⟩
    intro e he
    rcases mem_mapInsert he with he' | he'
    · exact h2 e he'
    · exact he' ▸ rfl
  | annSigs a => exact ⟨h0, h1, h2⟩

theorem batchWF_AddMsgs (msgs : List Message) (d : DeDupedAnnouncements)
    (h : batchWF d) : batchWF (d.AddMsgs msgs) := by
  induction msgs generalizing d with
  | nil => exact h
  | cons m t ih => exact ih (d.addMsg m) (batchWF_addMsg d m h)

theorem pairwise_of_const_category {l : List Message} {c : Nat}
    (h : ∀ x ∈ l, msgCategory x = c) :
    l.Pairwise (fun a b => msgCategory a ≤ msgCategory b) := by
  induction l with
  | nil => exact List.Pairwise.nil
  | cons a t ih =>
    refine List.Pairwise.cons ?_ (ih fun x hx => h x (List.mem_cons_of_mem a hx))
    intro b hb
    rw [h a (List.mem_cons_self a t), h b (List.mem_cons_of_mem a hb)]

theorem emit_pairwise_of_WF (d : DeDupedAnnouncements) (h : batchWF d) :
    d.Emit.Pairwise (fun a b => msgCategory a ≤ msgCategory b) := by
  obtain ⟨h0, h1, h2⟩ := h
  have m0 : ∀ x ∈ d.channelAnnouncements.map (fun e => e.2), msgCategory x = 0 := by
    intro x hx
    obtain ⟨e, he, rfl⟩ := List.mem_map.mp hx
    exact h0 e he
  have m1 : ∀ x ∈ d.channelUpdates.map (fun e => e.2), msgCategory x = 1 := by
    intro x hx
    obtain ⟨e, he, rfl⟩ := List.mem_map.mp hx
    exact h1 e he
  have m2 : ∀ x ∈ d.nodeAnnouncements.map (fun e => e.2), msgCategory x = 2 := by
    intro x hx
    obtain ⟨e, he, rfl⟩ := List.mem_map.mp hx
    exact h2 e he
  rw [DeDupedAnnouncements.Emit, List.pairwise_append]
  refine ⟨?_, pairwise_of_const_category m2, ?_⟩
  · rw [List.pairwise_append]
    refine ⟨pairwise_of_const_category m0, pairwise_of_const_category m1, ?_⟩
    intro a ha b hb
    rw [m0 a ha, m1 b hb]
    omega
  · intro a ha b hb
    rcases List.mem_append.mp ha with ha' | ha'
    · rw [m0 a ha', m2 b hb]
      omega
    · rw [m1 a ha', m2 b hb]
      omega

/-- C9: every batch `Emit` returns from a reachable batch state lists
channel announcements before channel updates before node announcements
(the category rank is nondecreasing along the emitted list). -/
theorem emit_category_ordered (msgs : List Message) :
    ((DeDupedAnnouncements.AddMsgs DeDupedAnnouncements.reset msgs).Emit).Pairwise
      (fun a b => msgCategory a ≤ msgCategory b) := by
  refine emit_pairwise_of_WF _ (batchWF_AddMsgs msgs DeDupedAnnouncements.reset ?_)
  refine ⟨?_, ?_, ?_⟩ <;> intro e he <;> simp [DeDupedAnnouncements.reset] at he

/-- C1 (amended): a ChannelAnnouncement or ChannelUpdate whose chain tag
differs from the engine's configured chain tag is dropped silently:
nothing at all is written to the envelope's result channel (no error is
delivered), the state — premature buffer and waiting-proof store — is
untouched, no graph-store call is made and nothing is emitted for the
dedup batch. -/
theorem chain_mismatch_silent_drop (env : Env) (s : GossiperState) (peer : Nat)
    (origin : Bool) (m : Message)
    (h : (∃ ca : ChannelAnnouncement, m = .chanAnn ca ∧ ca.chainHash ≠ env.chainHash) ∨
         (∃ cu : ChannelUpdate, m = .chanUpd cu ∧ cu.chainHash ≠ env.chainHash)) :
    processNetworkAnnouncement env s ⟨peer, m, origin⟩ =
      ⟨s, Outcome.silent, [], Effects.empty⟩ := by
  rcases h with ⟨ca, rfl, hne⟩ | ⟨cu, rfl, hne⟩ <;>
    simp [processNetworkAnnouncement, hne]

/-- C7: for a ChannelUpdate for a known channel the signing key is
selected by the flags value — 0 selects the channel's first node key, 1
the second — and any other flags value yields a protocol error on the
result channel with no `UpdateEdge` call and no signature validation. -/
theorem chanUpd_direction_key (env : Env) (s : GossiperState) (peer : Nat)
    (origin : Bool) (m : ChannelUpdate) (info : ChannelEdgeInfo)
    (e1 e2 : Option ChannelEdgePolicy)
    (hchain : m.chainHash = env.chainHash)
    (hmat : m.shortChannelID.blockHeight ≤ s.bestHeight)
    (hget : env.getChannelByID m.shortChannelID = some (info, e1, e2)) :
    (m.flags = 0 →
      (processNetworkAnnouncement env s ⟨peer, .chanUpd m, origin⟩).effects.chanUpdValidations
        = [(info.nodeKey1, m)])
    ∧ (m.flags = 1 →
      (processNetworkAnnouncement env s ⟨peer, .chanUpd m, origin⟩).effects.chanUpdValidations
        = [(info.nodeKey2, m)])
    ∧ (2 ≤ m.flags →
      (processNetworkAnnouncement env s ⟨peer, .chanUpd m, origin⟩).outcome
          = Outcome.err ErrKind.badFlags
      ∧ (processNetworkAnnouncement env s ⟨peer, .chanUpd m, origin⟩).effects.updateEdgeCalls = []
      ∧ (processNetworkAnnouncement env s ⟨peer, .chanUpd m, origin⟩).effects.chanUpdValidations = []) := by
  have hprem : isPremature s m.shortChannelID 0 = false := by
    simp only [isPremature, decide_eq_false_iff_not, not_lt]
    omega
  refine ⟨?_, ?_, ?_⟩
  · intro hf
    simp [processNetworkAnnouncement, hchain, hprem, hget, hf]
    split
    · simp [Effects.empty]
    · split <;> simp [Effects.empty]
  · intro hf
    simp [processNetworkAnnouncement, hchain, hprem, hget, hf]
    split
    · simp [Effects.empty]
    · split <;> simp [Effects.empty]
  · intro hf
    have hf0 : ¬(m.flags = 0) := by omega
    have hf1 : ¬(m.flags = 1) := by omega
    simp [processNetworkAnnouncement, hchain, hprem, hget, hf0, hf1, Effects.empty]

/-- C2 (amended): locally-originated NodeAnnouncements and
ChannelAnnouncements skip signature verification (the validators are
never invoked for them) and the chain-tag check is still enforced; a
locally-originated ChannelUpdate, however, is still signature-verified
against the key selected by its flags. -/
theorem local_validation_policy (env : Env) (s : GossiperState) (peer : Nat) :
    (∀ m : NodeAnnouncement,
      (processNetworkAnnouncement env s ⟨peer, .nodeAnn m, false⟩).effects.nodeAnnValidations = [])
    ∧ (∀ m : ChannelAnnouncement,
      (processNetworkAnnouncement env s ⟨peer, .chanAnn m, false⟩).effects.chanAnnValidations = [])
    ∧ (∀ m : ChannelAnnouncement, m.chainHash ≠ env.chainHash →
      (processNetworkAnnouncement env s ⟨peer, .chanAnn m, false⟩).outcome = Outcome.silent)
    ∧ (∀ (m : ChannelUpdate) (info : ChannelEdgeInfo)
        (e1 e2 : Option ChannelEdgePolicy), m.chainHash = env.chainHash →
        env.getChannelByID m.shortChannelID = some (info, e1, e2) → m.flags = 0 →
      (processNetworkAnnouncement env s ⟨peer, .chanUpd m, false⟩).effects.chanUpdValidations
        = [(info.nodeKey1, m)]) := by
  refine ⟨?_, ?_, ?_, ?_⟩
  · intro m
    simp only [processNetworkAnnouncement, Bool.false_and, Bool.false_eq_true, if_false]
    split <;> simp [Effects.empty]
  · intro m
    simp only [processNetworkAnnouncement, Bool.false_and, Bool.not_false]
    split
    · rfl
    · simp only [Bool.false_eq_true, if_false]
      split <;> simp [Effects.empty]
  · intro m hne
    simp [processNetworkAnnouncement, hne]
  · intro m info e1 e2 hchain hget hf
    simp [processNetworkAnnouncement, hchain, hget, hf]
    split
    · simp [Effects.empty]
    · split <;> simp [Effects.empty]

/-- C4 (amended): an AnnounceSignatures message is deferred (buffered in
the premature map under `block_height + proof_mature_delta` with nothing
written to the result channel) exactly when
`block_height + proof_mature_delta > best_known_height`; otherwise the
premature buffer is untouched and the message is processed immediately,
with some reply — success or error — written to the result channel. -/
theorem annSigs_deferred_iff_needHeight (env : Env) (s : GossiperState) (peer : Nat)
    (origin : Bool) (m : AnnounceSignatures) :
    (s.bestHeight < m.shortChannelID.blockHeight + env.proofMatureDelta →
      processNetworkAnnouncement env s ⟨peer, .annSigs m, origin⟩ =
        ⟨{ s with prematureAnnouncements := s.prematureAnnouncements ++
            [(m.shortChannelID.blockHeight + env.proofMatureDelta,
              ⟨peer, .annSigs m, origin⟩)] },
          Outcome.silent, [], Effects.empty⟩)
    ∧ (m.shortChannelID.blockHeight + env.proofMatureDelta ≤ s.bestHeight →
      (processNetworkAnnouncement env s ⟨peer, .annSigs m, origin⟩).state.prematureAnnouncements
          = s.prematureAnnouncements
      ∧ (processNetworkAnnouncement env s ⟨peer, .annSigs m, origin⟩).outcome
          ≠ Outcome.silent) := by
  constructor
  · intro h
    have hprem : isPremature s m.shortChannelID env.proofMatureDelta = true := by
      simp only [isPremature, decide_eq_true_eq]
      omega
    simp [processNetworkAnnouncement, hprem]
  · intro h
    have hprem : isPremature s m.shortChannelID env.proofMatureDelta = false := by
      simp only [isPremature, decide_eq_false_iff_not, not_lt]
      omega
    simp only [processNetworkAnnouncement, hprem, Bool.false_eq_true, if_false]
    rcases hg : env.getChannelByID m.shortChannelID with _ | ⟨info, e1, e2⟩
    · simp [hg]
    · simp only [hg]
      by_cases hpk : (peer == info.nodeKey1 || peer == info.nodeKey2) = true
      · simp only [hpk, Bool.not_true, Bool.false_eq_true, if_false]
        rcases hw : wpGet s.waitingProofs
            (WaitingProof.oppositeKey ⟨origin, m⟩) with _ | opp
        · simp [WaitingProof.oppositeKey, WaitingProof.key,
            WaitingProofKey.opposite] at hw
          simp [hw]
        · simp [WaitingProof.oppositeKey, WaitingProof.key,
            WaitingProofKey.opposite] at hw
          simp only [hw]
          split
          · simp
          · split <;> simp
      · simp only [Bool.not_eq_true] at hpk
        simp [hpk]

/-- Characterization of the announce-signatures branch when the channel
is known, the sender is one of its nodes, and the opposite half is not
yet in the waiting-proof store: the incoming half is persisted, success
is reported, no proof is assembled, and a local half is forwarded to the
counterparty. -/
theorem annSigs_first_half (env : Env) (s : GossiperState) (peer : Nat)
    (origin : Bool) (m : AnnounceSignatures) (info : ChannelEdgeInfo)
    (e1 e2 : Option ChannelEdgePolicy)
    (hmat : m.shortChannelID.blockHeight + env.proofMatureDelta ≤ s.bestHeight)
    (hget : env.getChannelByID m.shortChannelID = some (info, e1, e2))
    (hpeer : peer = info.nodeKey1 ∨ peer = info.nodeKey2)
    (hopp : wpGet s.waitingProofs (WaitingProof.oppositeKey ⟨origin, m⟩) = none) :
    processNetworkAnnouncement env s ⟨peer, .annSigs m, origin⟩ =
      ⟨{ s with waitingProofs := wpAdd s.waitingProofs ⟨origin, m⟩ },
        Outcome.ok, [],
        { Effects.empty with sendToPeerCalls :=
            if !origin then
              [(if peer == info.nodeKey1 then info.nodeKey2 else info.nodeKey1, m)]
            else [] }⟩ := by
  have hprem : isPremature s m.shortChannelID env.proofMatureDelta = false := by
    simp only [isPremature, decide_eq_false_iff_not, not_lt]
    omega
  have hpk : (peer == info.nodeKey1 || peer == info.nodeKey2) = true := by
    rcases hpeer with h | h <;> simp [h]
  simp [WaitingProof.oppositeKey, WaitingProof.key, WaitingProofKey.opposite] at hopp
  simp [processNetworkAnnouncement, hprem, hget, hpk, hopp,
    WaitingProof.oppositeKey, WaitingProof.key, WaitingProofKey.opposite]

/-- Characterization of the announce-signatures branch when the channel
is known, the sender is one of its nodes, the opposite half is present,
and the assembled proof validates and is accepted by the router: one
`AddProof` call is made, the opposite waiting-proof record is removed,
the incoming half is not persisted, and success is reported. -/
theorem annSigs_assembly_success (env : Env) (s : GossiperState) (peer : Nat)
    (origin : Bool) (m : AnnounceSignatures) (info : ChannelEdgeInfo)
    (e1 e2 : Option ChannelEdgePolicy) (opp : WaitingProof)
    (hmat : m.shortChannelID.blockHeight + env.proofMatureDelta ≤ s.bestHeight)
    (hget : env.getChannelByID m.shortChannelID = some (info, e1, e2))
    (hpeer : peer = info.nodeKey1 ∨ peer = info.nodeKey2)
    (hopp : wpGet s.waitingProofs (WaitingProof.oppositeKey ⟨origin, m⟩) = some opp)
    (hval : env.validateChannelAnn
        (createChanAnnouncement (assembleDbProof (peer == info.nodeKey1) m opp.msg)
          info e1 e2).1 = true)
    (haddp : env.addProofOk m.shortChannelID
        (assembleDbProof (peer == info.nodeKey1) m opp.msg) = true) :
    (processNetworkAnnouncement env s ⟨peer, .annSigs m, origin⟩).state =
        { s with waitingProofs :=
            wpRemove s.waitingProofs (WaitingProof.oppositeKey ⟨origin, m⟩) }
    ∧ (processNetworkAnnouncement env s ⟨peer, .annSigs m, origin⟩).outcome = Outcome.ok
    ∧ (processNetworkAnnouncement env s ⟨peer, .annSigs m, origin⟩).effects.addProofCalls
        = [(m.shortChannelID, assembleDbProof (peer == info.nodeKey1) m opp.msg)]
    ∧ (processNetworkAnnouncement env s ⟨peer, .annSigs m, origin⟩).effects.removedWaitingProofs
        = [WaitingProof.oppositeKey ⟨origin, m⟩] := by
  have hprem : isPremature s m.shortChannelID env.proofMatureDelta = false := by
    simp only [isPremature, decide_eq_false_iff_not, not_lt]
    omega
  have hpk : (peer == info.nodeKey1 || peer == info.nodeKey2) = true := by
    rcases hpeer with h | h <;> simp [h]
  simp only [WaitingProof.oppositeKey, WaitingProof.key, WaitingProofKey.opposite] at hopp hval haddp ⊢
  simp [processNetworkAnnouncement, hprem, hget, hpk, hopp, hval, haddp,
    WaitingProof.oppositeKey, WaitingProof.key, WaitingProofKey.opposite]

/-- C6: when both halves of a channel proof are present but validation
of the assembled announcement fails, an error is written to the result
channel and nothing is mutated: the state (including the waiting-proof
store, which keeps the opposite half and does not gain the incoming
half) is unchanged, `AddProof` is not called, and nothing is emitted
for the dedup batch. -/
theorem proof_assembly_validation_failure (env : Env) (s : GossiperState) (peer : Nat)
    (origin : Bool) (m : AnnounceSignatures) (info : ChannelEdgeInfo)
    (e1 e2 : Option ChannelEdgePolicy) (opp : WaitingProof)
    (hmat : m.shortChannelID.blockHeight + env.proofMatureDelta ≤ s.bestHeight)
    (hget : env.getChannelByID m.shortChannelID = some (info, e1, e2))
    (hpeer : peer = info.nodeKey1 ∨ peer = info.nodeKey2)
    (hopp : wpGet s.waitingProofs (WaitingProof.oppositeKey ⟨origin, m⟩) = some opp)
    (hval : env.validateChannelAnn
        (createChanAnnouncement (assembleDbProof (peer == info.nodeKey1) m opp.msg)
          info e1 e2).1 = false) :
    processNetworkAnnouncement env s ⟨peer, .annSigs m, origin⟩ =
      ⟨s, Outcome.err ErrKind.proofInvalid, [],
       { Effects.empty with chanAnnValidations :=
           [(createChanAnnouncement (assembleDbProof (peer == info.nodeKey1) m opp.msg)
              info e1 e2).1] }⟩ := by
  have hprem : isPremature s m.shortChannelID env.proofMatureDelta = false := by
    simp only [isPremature, decide_eq_false_iff_not, not_lt]
    omega
  have hpk : (peer == info.nodeKey1 || peer == info.nodeKey2) = true := by
    rcases hpeer with h | h <;> simp [h]
  simp only [WaitingProof.oppositeKey, WaitingProof.key, WaitingProofKey.opposite] at hopp hval ⊢
  simp [processNetworkAnnouncement, hprem, hget, hpk, hopp, hval,
    WaitingProof.oppositeKey, WaitingProof.key, WaitingProofKey.opposite]

/-- C3: for a known channel, processing the two complementary halves of
its channel proof — in either order, first half of either origin, the
second of the opposite origin — makes exactly one `AddProof` call and
exactly one waiting-proof removal, under the key opposite to the second
half; processing only the first half makes zero `AddProof` calls and
persists exactly one record (under the half's own key, the other key
staying empty). -/
theorem proof_exchange_completeness (env : Env) (s : GossiperState)
    (p1 p2 : Nat) (o : Bool) (m1 m2 : AnnounceSignatures)
    (info : ChannelEdgeInfo) (e1 e2 : Option ChannelEdgePolicy)
    (hscid : m2.shortChannelID = m1.shortChannelID)
    (hmat : m1.shortChannelID.blockHeight + env.proofMatureDelta ≤ s.bestHeight)
    (hget : env.getChannelByID m1.shortChannelID = some (info, e1, e2))
    (hp1 : p1 = info.nodeKey1 ∨ p1 = info.nodeKey2)
    (hp2 : p2 = info.nodeKey1 ∨ p2 = info.nodeKey2)
    (hempty1 : wpGet s.waitingProofs ⟨o, m1.shortChannelID⟩ = none)
    (hempty2 : wpGet s.waitingProofs ⟨!o, m1.shortChannelID⟩ = none)
    (hval : env.validateChannelAnn
        (createChanAnnouncement (assembleDbProof (p2 == info.nodeKey1) m2 m1)
          info e1 e2).1 = true)
    (haddp : env.addProofOk m2.shortChannelID
        (assembleDbProof (p2 == info.nodeKey1) m2 m1) = true) :
    (processNetworkAnnouncement env s ⟨p1, .annSigs m1, o⟩).effects.addProofCalls = []
    ∧ (processNetworkAnnouncement env s ⟨p1, .annSigs m1, o⟩).outcome = Outcome.ok
    ∧ wpGet (processNetworkAnnouncement env s ⟨p1, .annSigs m1, o⟩).state.waitingProofs
        ⟨o, m1.shortChannelID⟩ = some ⟨o, m1⟩
    ∧ wpGet (processNetworkAnnouncement env s ⟨p1, .annSigs m1, o⟩).state.waitingProofs
        ⟨!o, m1.shortChannelID⟩ = none
    ∧ (processNetworkAnnouncement env
        (processNetworkAnnouncement env s ⟨p1, .annSigs m1, o⟩).state
        ⟨p2, .annSigs m2, !o⟩).effects.addProofCalls
        = [(m2.shortChannelID, assembleDbProof (p2 == info.nodeKey1) m2 m1)]
    ∧ (processNetworkAnnouncement env
        (processNetworkAnnouncement env s ⟨p1, .annSigs m1, o⟩).state
        ⟨p2, .annSigs m2, !o⟩).effects.removedWaitingProofs
        = [⟨o, m1.shortChannelID⟩]
    ∧ (processNetworkAnnouncement env
        (processNetworkAnnouncement env s ⟨p1, .annSigs m1, o⟩).state
        ⟨p2, .annSigs m2, !o⟩).outcome = Outcome.ok := by
  have hopp1 : wpGet s.waitingProofs (WaitingProof.oppositeKey ⟨o, m1⟩) = none := by
    simpa [WaitingProof.oppositeKey, WaitingProof.key, WaitingProofKey.opposite]
      using hempty2
  have h1 := annSigs_first_half env s p1 o m1 info e1 e2 hmat hget hp1 hopp1
  have hst1 : (processNetworkAnnouncement env s ⟨p1, .annSigs m1, o⟩).state
      = { s with waitingProofs := wpAdd s.waitingProofs ⟨o, m1⟩ } := by rw [h1]
  have hget1R : wpGet (wpAdd s.waitingProofs ⟨o, m1⟩) ⟨o, m1.shortChannelID⟩
      = some ⟨o, m1⟩ := by
    rw [wpGet_wpAdd]
    simp [WaitingProof.key]
  have hkeyne : (⟨!o, m1.shortChannelID⟩ : WaitingProofKey)
      ≠ WaitingProof.key ⟨o, m1⟩ := by
    simp [WaitingProof.key]
  have hget1N : wpGet (wpAdd s.waitingProofs ⟨o, m1⟩) ⟨!o, m1.shortChannelID⟩
      = none := by
    rw [wpGet_wpAdd, if_neg hkeyne]
    exact hempty2
  have hmat2 : m2.shortChannelID.blockHeight + env.proofMatureDelta
      ≤ (processNetworkAnnouncement env s ⟨p1, .annSigs m1, o⟩).state.bestHeight := by
    rw [hst1, hscid]
    exact hmat
  have hget2 : env.getChannelByID m2.shortChannelID = some (info, e1, e2) := by
    rw [hscid]
    exact hget
  have hopp2 : wpGet (processNetworkAnnouncement env s ⟨p1, .annSigs m1, o⟩).state.waitingProofs
      (WaitingProof.oppositeKey ⟨!o, m2⟩) = some ⟨o, m1⟩ := by
    rw [hst1]
    have hk : WaitingProof.oppositeKey ⟨!o, m2⟩
        = (⟨o, m1.shortChannelID⟩ : WaitingProofKey) := by
      simp [WaitingProof.oppositeKey, WaitingProof.key, WaitingProofKey.opposite, hscid]
    rw [hk]
    exact hget1R
  have h2 := annSigs_assembly_success env
    (processNetworkAnnouncement env s ⟨p1, .annSigs m1, o⟩).state p2 (!o) m2
    info e1 e2 ⟨o, m1⟩ hmat2 hget2 hp2 hopp2 hval haddp
  have hkopp : WaitingProof.oppositeKey ⟨!o, m2⟩
      = (⟨o, m1.shortChannelID⟩ : WaitingProofKey) := by
    simp [WaitingProof.oppositeKey, WaitingProof.key, WaitingProofKey.opposite, hscid]
  refine ⟨?_, ?_, ?_, ?_, ?_, ?_, ?_⟩
  · rw [h1]; simp [Effects.empty]
  · rw [h1]
  · rw [hst1]; exact hget1R
  · rw [hst1]; exact hget1N
  · exact h2.2.2.1
  · rw [h2.2.2.2, hkopp]
  · exact h2.2.1

/-- C10: after a successful full-proof assembly (both halves matched,
validation, `AddProof` and removal succeed) the waiting-proof store
holds no record for the channel under either origin key: the incoming
half is never persisted on this path — the store only loses the
opposite record — and the previously stored opposite half is removed. -/
theorem full_proof_clears_waiting_store (env : Env) (s : GossiperState) (peer : Nat)
    (origin : Bool) (m : AnnounceSignatures) (info : ChannelEdgeInfo)
    (e1 e2 : Option ChannelEdgePolicy) (opp : WaitingProof)
    (hmat : m.shortChannelID.blockHeight + env.proofMatureDelta ≤ s.bestHeight)
    (hget : env.getChannelByID m.shortChannelID = some (info, e1, e2))
    (hpeer : peer = info.nodeKey1 ∨ peer = info.nodeKey2)
    (hopp : wpGet s.waitingProofs (WaitingProof.oppositeKey ⟨origin, m⟩) = some opp)
    (hself : wpGet s.waitingProofs (WaitingProof.key ⟨origin, m⟩) = none)
    (hval : env.validateChannelAnn
        (createChanAnnouncement (assembleDbProof (peer == info.nodeKey1) m opp.msg)
          info e1 e2).1 = true)
    (haddp : env.addProofOk m.shortChannelID
        (assembleDbProof (peer == info.nodeKey1) m opp.msg) = true) :
    (processNetworkAnnouncement env s ⟨peer, .annSigs m, origin⟩).state.waitingProofs
        = wpRemove s.waitingProofs (WaitingProof.oppositeKey ⟨origin, m⟩)
    ∧ wpGet (processNetworkAnnouncement env s ⟨peer, .annSigs m, origin⟩).state.waitingProofs
        (WaitingProof.key ⟨origin, m⟩) = none
    ∧ wpGet (processNetworkAnnouncement env s ⟨peer, .annSigs m, origin⟩).state.waitingProofs
        (WaitingProof.oppositeKey ⟨origin, m⟩) = none
    ∧ (processNetworkAnnouncement env s ⟨peer, .annSigs m, origin⟩).effects.removedWaitingProofs
        = [WaitingProof.oppositeKey ⟨origin, m⟩] := by
  have h := annSigs_assembly_success env s peer origin m info e1 e2 opp
    hmat hget hpeer hopp hval haddp
  have hwp : (processNetworkAnnouncement env s ⟨peer, .annSigs m, origin⟩).state.waitingProofs
      = wpRemove s.waitingProofs (WaitingProof.oppositeKey ⟨origin, m⟩) := by
    rw [h.1]
  refine ⟨hwp, ?_, ?_, h.2.2.2⟩
  · rw [hwp, wpGet_wpRemove]
    split
    · rfl
    · exact hself
  · rw [hwp, wpGet_wpRemove, if_pos rfl]

/-! Concrete fixtures used by the closed evaluations below. -/

/-- Fixture short channel id at block height 100. -/
def scidW : ShortChannelID := ⟨100, 0, 0⟩

/-- Fixture stored channel info: nodes 1 and 2, no proof attached. -/
def infoW : ChannelEdgeInfo :=
  { channelID := scidW, chainHash := 0, nodeKey1 := 1, nodeKey2 := 2,
    bitcoinKey1 := 3, bitcoinKey2 := 4, authProof := none, features := 0 }

/-- Fixture environment: chain tag 0, zero maturity delta, all
validators and store calls succeeding, the channel `scidW` known. -/
def envW : Env :=
  { chainHash := 0
    proofMatureDelta := 0
    validateNodeAnn := fun _ => true
    validateChannelAnn := fun _ => true
    validateChannelUpdateAnn := fun _ _ => true
    getChannelByID := fun c => if c = scidW then some (infoW, none, none) else none
    addNodeOk := fun _ => true
    addEdgeOk := fun _ => true
    updateEdgeOk := fun _ => true
    addProofOk := fun _ _ => true }

/-- Fixture environment with a five-block proof maturity delta. -/
def envDeltaW : Env := { envW with proofMatureDelta := 5 }

/-- Fixture environment whose update-signature validator rejects. -/
def envBadSigW : Env := { envW with validateChannelUpdateAnn := fun _ _ => false }

/-- Fixture environment whose channel-announcement validator rejects. -/
def envBadAnnW : Env := { envW with validateChannelAnn := fun _ => false }

/-- Fixture state at best height 100 with empty buffers. -/
def sW : GossiperState := ⟨100, [], []⟩

/-- Fixture state at best height 99 with empty buffers. -/
def s99W : GossiperState := ⟨99, [], []⟩

/-- Fixture channel announcement for `scidW` on the engine's chain. -/
def caW : ChannelAnnouncement :=
  { chainHash := 0, shortChannelID := scidW, nodeID1 := 1, nodeID2 := 2,
    bitcoinKey1 := 3, bitcoinKey2 := 4, nodeSig1 := 11, nodeSig2 := 12,
    bitcoinSig1 := 13, bitcoinSig2 := 14, features := 0 }

/-- Fixture channel announcement carrying a foreign chain tag. -/
def caForeignW : ChannelAnnouncement := { caW with chainHash := 7 }

/-- Fixture channel update for `scidW` with flags 0. -/
def cuW : ChannelUpdate :=
  { chainHash := 0, shortChannelID := scidW, timestamp := 1, flags := 0,
    timeLockDelta := 6, htlcMinimumMsat := 1000, baseFee := 1, feeRate := 1,
    updSignature := 99 }

/-- Fixture announce-signatures half (used as the locally-sent half). -/
def asLW : AnnounceSignatures := ⟨0, scidW, 31, 32⟩

/-- Fixture announce-signatures half (used as the remote half). -/
def asRW : AnnounceSignatures := ⟨0, scidW, 41, 42⟩

/-- Fixture state whose waiting-proof store already holds the local
half for `scidW`. -/
def sOppW : GossiperState := ⟨100, [], [(⟨false, scidW⟩, ⟨false, asLW⟩)]⟩

/-- C5 (evaluation at the failing input): a remote channel announcement
at height 100 received at best height 99 is buffered with no `AddEdge`;
a later block epoch at height 101 — which is ≥ 100 — re-processes
nothing: `AddEdge` is still never called and the announcement stays
buffered under key 100 forever, because only the exactly-matching
height key is drained. An epoch at exactly height 100 processes it
exactly once and empties the buffer. -/
theorem premature_drain_skips_heights :
    (processNetworkAnnouncement envW s99W ⟨1, .chanAnn caW, true⟩).effects.addEdgeCalls = []
    ∧ (processNetworkAnnouncement envW s99W ⟨1, .chanAnn caW, true⟩).state.prematureAnnouncements
        = [(100, ⟨1, .chanAnn caW, true⟩)]
    ∧ (handleNewBlock envW
        (processNetworkAnnouncement envW s99W ⟨1, .chanAnn caW, true⟩).state
        101).effects.addEdgeCalls = []
    ∧ (handleNewBlock envW
        (processNetworkAnnouncement envW s99W ⟨1, .chanAnn caW, true⟩).state
        101).state.prematureAnnouncements = [(100, ⟨1, .chanAnn caW, true⟩)]
    ∧ (handleNewBlock envW
        (processNetworkAnnouncement envW s99W ⟨1, .chanAnn caW, true⟩).state
        100).effects.addEdgeCalls.length = 1
    ∧ (handleNewBlock envW
        (processNetworkAnnouncement envW s99W ⟨1, .chanAnn caW, true⟩).state
        100).state.prematureAnnouncements = [] := by
  refine ⟨rfl, rfl, rfl, rfl, rfl, rfl⟩

/-- C1 counterexample: a valid channel announcement carrying a foreign
chain tag is dropped with nothing written to the envelope's result
channel — the claimed error never arrives. -/
theorem chain_mismatch_no_error_cex :
    (processNetworkAnnouncement envW sW ⟨1, .chanAnn caForeignW, true⟩).outcome
      = Outcome.silent := rfl

/-- C1 witness. -/
theorem chain_mismatch_silent_drop_witness :
    processNetworkAnnouncement envW sW ⟨1, .chanAnn caForeignW, true⟩ =
      ⟨sW, Outcome.silent, [], Effects.empty⟩ :=
  chain_mismatch_silent_drop envW sW 1 true (.chanAnn caForeignW)
    (Or.inl ⟨caForeignW, rfl, by decide⟩)

/-- C2 counterexample: a locally-originated ChannelUpdate for a known
channel with an invalid signature is not admitted — the update
validator is invoked (with the key selected by the flags) and rejects,
the result channel receives an error and `UpdateEdge` is not called. -/
theorem local_update_still_validated_cex :
    (processNetworkAnnouncement envBadSigW sW ⟨1, .chanUpd cuW, false⟩).effects.chanUpdValidations
        = [(1, cuW)]
    ∧ (processNetworkAnnouncement envBadSigW sW ⟨1, .chanUpd cuW, false⟩).outcome
        = Outcome.err ErrKind.validation
    ∧ (processNetworkAnnouncement envBadSigW sW ⟨1, .chanUpd cuW, false⟩).effects.updateEdgeCalls
        = [] :=
  ⟨rfl, rfl, rfl⟩

/-- C2 witness. -/
theorem local_validation_policy_witness :
    (processNetworkAnnouncement envW sW
        ⟨1, .nodeAnn ⟨5, 6, 7, 8, 0, []⟩, false⟩).effects.nodeAnnValidations = []
    ∧ (processNetworkAnnouncement envW sW
        ⟨1, .chanAnn caForeignW, false⟩).outcome = Outcome.silent
    ∧ (processNetworkAnnouncement envW sW
        ⟨1, .chanUpd cuW, false⟩).effects.chanUpdValidations = [(infoW.nodeKey1, cuW)] := by
  obtain ⟨h1, h2, h3, h4⟩ := local_validation_policy envW sW 1
  exact ⟨h1 ⟨5, 6, 7, 8, 0, []⟩, h3 caForeignW (by decide),
    h4 cuW infoW none none rfl rfl rfl⟩

/-- C4 counterexample: an AnnounceSignatures at block height 100 with
`best_height = 100` and `proof_mature_delta = 5` has
`block_height ≤ best_height + delta`, so by the claim it must be
processed immediately — yet the code defers it: it is buffered under
height 105 and nothing is written to the result channel. -/
theorem annSigs_deferral_cex :
    asLW.shortChannelID.blockHeight ≤ sW.bestHeight + envDeltaW.proofMatureDelta
    ∧ (processNetworkAnnouncement envDeltaW sW ⟨1, .annSigs asLW, true⟩).state.prematureAnnouncements
        = [(105, ⟨1, .annSigs asLW, true⟩)]
    ∧ (processNetworkAnnouncement envDeltaW sW ⟨1, .annSigs asLW, true⟩).outcome
        = Outcome.silent :=
  ⟨by decide, rfl, rfl⟩

/-- C4 witness. -/
theorem annSigs_deferred_iff_needHeight_witness :
    processNetworkAnnouncement envDeltaW sW ⟨1, .annSigs asLW, true⟩ =
      ⟨{ sW with prematureAnnouncements := sW.prematureAnnouncements ++
          [(asLW.shortChannelID.blockHeight + envDeltaW.proofMatureDelta,
            ⟨1, .annSigs asLW, true⟩)] },
        Outcome.silent, [], Effects.empty⟩ :=
  (annSigs_deferred_iff_needHeight envDeltaW sW 1 true asLW).1 (by decide)

/-- C7 witness. -/
theorem chanUpd_direction_key_witness :
    (processNetworkAnnouncement envW sW ⟨1, .chanUpd cuW, true⟩).effects.chanUpdValidations
        = [(infoW.nodeKey1, cuW)]
    ∧ (processNetworkAnnouncement envW sW
        ⟨1, .chanUpd { cuW with flags := 2 }, true⟩).outcome
        = Outcome.err ErrKind.badFlags
    ∧ (processNetworkAnnouncement envW sW
        ⟨1, .chanUpd { cuW with flags := 2 }, true⟩).effects.updateEdgeCalls = [] := by
  refine ⟨?_, ?_, ?_⟩
  · exact (chanUpd_direction_key envW sW 1 true cuW infoW none none rfl
      (by decide) rfl).1 rfl
  · exact ((chanUpd_direction_key envW sW 1 true { cuW with flags := 2 } infoW
      none none rfl (by decide) rfl).2.2 (by decide)).1
  · exact ((chanUpd_direction_key envW sW 1 true { cuW with flags := 2 } infoW
      none none rfl (by decide) rfl).2.2 (by decide)).2.1

/-- C6 witness. -/
theorem proof_assembly_validation_failure_witness :
    processNetworkAnnouncement envBadAnnW sOppW ⟨2, .annSigs asRW, true⟩ =
      ⟨sOppW, Outcome.err ErrKind.proofInvalid, [],
       { Effects.empty with chanAnnValidations :=
           [(createChanAnnouncement (assembleDbProof (2 == infoW.nodeKey1) asRW asLW)
              infoW none none).1] }⟩ :=
  proof_assembly_validation_failure envBadAnnW sOppW 2 true asRW infoW none none
    ⟨false, asLW⟩ (by decide) rfl (Or.inr rfl) rfl rfl

/-- C3 witness. -/
theorem proof_exchange_completeness_witness :
    (processNetworkAnnouncement envW sW ⟨1, .annSigs asLW, false⟩).effects.addProofCalls = []
    ∧ (processNetworkAnnouncement envW sW ⟨1, .annSigs asLW, false⟩).outcome = Outcome.ok
    ∧ wpGet (processNetworkAnnouncement envW sW ⟨1, .annSigs asLW, false⟩).state.waitingProofs
        ⟨false, asLW.shortChannelID⟩ = some ⟨false, asLW⟩
    ∧ wpGet (processNetworkAnnouncement envW sW ⟨1, .annSigs asLW, false⟩).state.waitingProofs
        ⟨!false, asLW.shortChannelID⟩ = none
    ∧ (processNetworkAnnouncement envW
        (processNetworkAnnouncement envW sW ⟨1, .annSigs asLW, false⟩).state
        ⟨2, .annSigs asRW, !false⟩).effects.addProofCalls
        = [(asRW.shortChannelID, assembleDbProof (2 == infoW.nodeKey1) asRW asLW)]
    ∧ (processNetworkAnnouncement envW
        (processNetworkAnnouncement envW sW ⟨1, .annSigs asLW, false⟩).state
        ⟨2, .annSigs asRW, !false⟩).effects.removedWaitingProofs
        = [⟨false, asLW.shortChannelID⟩]
    ∧ (processNetworkAnnouncement envW
        (processNetworkAnnouncement envW sW ⟨1, .annSigs asLW, false⟩).state
        ⟨2, .annSigs asRW, !false⟩).outcome = Outcome.ok :=
  proof_exchange_completeness envW sW 1 2 false asLW asRW infoW none none rfl
    (by decide) rfl (Or.inl rfl) (Or.inr rfl) rfl rfl rfl rfl

/-- C10 witness. -/
theorem full_proof_clears_waiting_store_witness :
    (processNetworkAnnouncement envW sOppW ⟨2, .annSigs asRW, true⟩).state.waitingProofs
        = wpRemove sOppW.waitingProofs (WaitingProof.oppositeKey ⟨true, asRW⟩)
    ∧ wpGet (processNetworkAnnouncement envW sOppW ⟨2, .annSigs asRW, true⟩).state.waitingProofs
        (WaitingProof.key ⟨true, asRW⟩) = none
    ∧ wpGet (processNetworkAnnouncement envW sOppW ⟨2, .annSigs asRW, true⟩).state.waitingProofs
        (WaitingProof.oppositeKey ⟨true, asRW⟩) = none
    ∧ (processNetworkAnnouncement envW sOppW ⟨2, .annSigs asRW, true⟩).effects.removedWaitingProofs
        = [WaitingProof.oppositeKey ⟨true, asRW⟩] :=
  full_proof_clears_waiting_store envW sOppW 2 true asRW infoW none none
    ⟨false, asLW⟩ (by decide) rfl (Or.inr rfl) rfl rfl rfl rfl
